import Mathlib

/-!
Shallow embedding of the generic channel module (`src/channel/src/channel.c`
of liquid-dsp), instantiated at the complex-sample type (`T = TC = TI = TO =
float complex`), with C `float` arithmetic modelled by real numbers.

The module's external collaborators (the NCO oscillator, the FIRFILT filter
and the Gaussian variate source `randnf`) are not part of the repository
source; they are modelled from the spec, as marked on each definition.
Randomness is modelled by an explicit stream `g : Nat -> Real` of Gaussian
draws together with a cursor: each operation that draws consumes entries
`g k, g (k+1), ...` in order and returns the advanced cursor.
-/

open Complex

/-- Modelled from the spec: the numerically-controlled-oscillator collaborator
(`NCO()`), which the spec describes as generating a complex unit-magnitude
rotation at a programmable frequency (radians/sample) and phase (radians),
advancing its running phase by the frequency once per mix operation.
A freshly created oscillator has frequency and phase both zero. -/
structure Nco where
  freq : ℝ
  phase : ℝ

/-- Modelled from the spec: `NCO(_create)` gives initial frequency and phase
both zero. -/
def Nco.create : Nco := { freq := 0, phase := 0 }

/-- Modelled from the spec: `NCO(_set_frequency)`. -/
def Nco.set_frequency (n : Nco) (f : ℝ) : Nco := { n with freq := f }

/-- Modelled from the spec: `NCO(_set_phase)`. -/
def Nco.set_phase (n : Nco) (p : ℝ) : Nco := { n with phase := p }

/-- Modelled from the spec: `NCO(_mix_up)` rotates the sample by the
oscillator's current complex rotation `exp(i*phase)` and, as a side effect,
advances the running phase by the configured frequency. -/
noncomputable def Nco.mix_up (n : Nco) (x : ℂ) : ℂ × Nco :=
  (x * Complex.exp (n.phase * Complex.I), { n with phase := n.phase + n.freq })

/-- Modelled from the spec: the finite-impulse-response filter collaborator
(`FIRFILT()`): a fixed complex coefficient vector `h` plus a delay line `w`
(most recent sample first) of the same length. -/
structure Firfilt where
  h : List ℂ
  w : List ℂ

/-- Modelled from the spec: `FIRFILT(_create)` builds the filter from a
coefficient array, with an all-zero delay line. -/
def Firfilt.create (h : List ℂ) : Firfilt :=
  { h := h, w := List.replicate h.length 0 }

/-- Modelled from the spec: `FIRFILT(_push)` shifts the sample into the delay
line, discarding the oldest entry. -/
def Firfilt.push (f : Firfilt) (x : ℂ) : Firfilt :=
  { f with w := (x :: f.w).take f.h.length }

/-- Modelled from the spec: `FIRFILT(_execute)` pops the convolution of the
coefficients with the delay line. -/
def Firfilt.output (f : Firfilt) : ℂ :=
  (List.zipWith (fun a b => a * b) f.h f.w).sum

/-- The result tag of `Channel.add_multipath`: the call either succeeds,
ignores a zero-length request with a warning, or hits the fatal over-length
error (in the C source: `exit(1)`, modelled as returning this tag with the
engine state untouched). -/
inductive MpStatus where
  | ok : MpStatus
  | ignored : MpStatus
  | fatal : MpStatus
deriving Repr, DecidableEq

/-- The channel object, field for field from `struct CHANNEL(_s)`.
The noise-stage numeric fields (`gamma`, `nstd`, `noise_floor_dB`, `SNRdB`)
are uninitialized in the C constructor (malloc garbage) until
`channel_add_awgn` runs; the model initializes them to zero and no theorem
below depends on their initial values. -/
structure Channel where
  enabled_awgn : Bool
  gamma : ℂ
  nstd : ℂ
  noise_floor_dB : ℝ
  SNRdB : ℝ
  enabled_carrier : Bool
  dphi : ℝ
  phi : ℝ
  nco : Nco
  enabled_multipath : Bool
  channel_filter : Option Firfilt
  h : List ℂ
  h_len : ℕ

namespace Channel

/-- `CHANNEL(_create)`: all three stages disabled, fresh oscillator, no
filter object (`channel_filter = NULL`), coefficient buffer `[1.0]` of
length 1. -/
def create : Channel :=
  { enabled_awgn := false
    gamma := 0
    nstd := 0
    noise_floor_dB := 0
    SNRdB := 0
    enabled_carrier := false
    dphi := 0
    phi := 0
    nco := Nco.create
    enabled_multipath := false
    channel_filter := none
    h := [1]
    h_len := 1 }

/-- `CHANNEL(_add_awgn)`: enable the noise stage, record the dB inputs, and
derive `nstd = 10^(noise_floor_dB/20)` and
`gamma = 10^((SNRdB + noise_floor_dB)/20)`. -/
noncomputable def add_awgn (q : Channel) (noisefloor snr : ℝ) : Channel :=
  { q with
    enabled_awgn := true
    noise_floor_dB := noisefloor
    SNRdB := snr
    nstd := (((10 : ℝ) ^ (noisefloor / 20) : ℝ) : ℂ)
    gamma := (((10 : ℝ) ^ ((snr + noisefloor) / 20) : ℝ) : ℂ) }

/-- `CHANNEL(_add_carrier_offset)`: enable the carrier stage, store the
frequency/phase offsets and program the oscillator with them. -/
def add_carrier_offset (q : Channel) (frequency phase : ℝ) : Channel :=
  { q with
    enabled_carrier := true
    dphi := frequency
    phi := phase
    nco := Nco.set_phase (Nco.set_frequency q.nco frequency) phase }

/-- The random-coefficient loop of `CHANNEL(_add_multipath)`: for each of `n`
taps it draws two Gaussians and forms `0.05f * ( randnf() * _Complex_I*randnf() )`
exactly as the C source does (a product, `g1 * i * g2`). -/
noncomputable def synth_taps : ℕ → (ℕ → ℝ) → ℕ → List ℂ × ℕ
  | 0, _, k => ([], k)
  | n + 1, g, k =>
    let c : ℂ := (0.05 : ℂ) * ((g k : ℂ) * Complex.I * (g (k + 1) : ℂ))
    let r := synth_taps n g (k + 2)
    (c :: r.1, r.2)

/-- `CHANNEL(_add_multipath)`: zero length is ignored with a warning; length
above 1000 is the fatal error (`exit(1)` in the C source — the state at that
point is returned unchanged together with the `fatal` tag); otherwise the
stage is enabled, the coefficient buffer is resized to `len` and filled
(tap 0 fixed at `1.0` and the remaining taps drawn randomly when the caller
passes NULL, else copied from the caller's array), and the owned filter is
destroyed and rebuilt from the new coefficients. -/
noncomputable def add_multipath (q : Channel) (hin : Option (List ℂ)) (len : ℕ)
    (g : ℕ → ℝ) (k : ℕ) : Channel × MpStatus × ℕ :=
  if len = 0 then
    (q, MpStatus.ignored, k)
  else if 1000 < len then
    (q, MpStatus.fatal, k)
  else
    match hin with
    | none =>
      let taps := synth_taps (len - 1) g k
      let hnew := (1 : ℂ) :: taps.1
      ({ q with
          enabled_multipath := true
          h := hnew
          h_len := len
          channel_filter := some (Firfilt.create hnew) }, MpStatus.ok, taps.2)
    | some hs =>
      let hnew := hs.take len
      ({ q with
          enabled_multipath := true
          h := hnew
          h_len := len
          channel_filter := some (Firfilt.create hnew) }, MpStatus.ok, k)

/-- `CHANNEL(_execute)`, translated line by line from the C loop body: for
each sample in index order, apply the multipath filter (push then pop) when
enabled, then the carrier mix-up when enabled, then the noise stage
(`y *= gamma; y += nstd * (randnf() + i*randnf()) * M_SQRT1_2`) when enabled,
and finally report the output length equal to the input length (here, the
length of the returned list). When the multipath stage is enabled but no
filter object exists the C code would dereference NULL; that state is
unreachable through the module's own interface and the model passes the
sample through. -/
noncomputable def execute (q : Channel) (x : List ℂ) (g : ℕ → ℝ) (k : ℕ) :
    Channel × List ℂ × ℕ :=
  match x with
  | [] => (q, [], k)
  | xi :: xs =>
    -- apply filter
    let m : Channel × ℂ :=
      if q.enabled_multipath then
        match q.channel_filter with
        | some f =>
          let f1 := Firfilt.push f xi
          ({ q with channel_filter := some f1 }, Firfilt.output f1)
        | none => (q, xi)
      else (q, xi)
    -- apply carrier if enabled
    let c : Channel × ℂ :=
      if m.1.enabled_carrier then
        let r := Nco.mix_up m.1.nco m.2
        ({ m.1 with nco := r.2 }, r.1)
      else m
    -- apply AWGN if enabled
    let a : ℂ × ℕ :=
      if c.1.enabled_awgn then
        (c.2 * c.1.gamma
          + c.1.nstd * ((g k : ℂ) + Complex.I * (g (k + 1) : ℂ))
            * (((Real.sqrt 2)⁻¹ : ℝ) : ℂ), k + 2)
      else (c.2, k)
    let rest := execute c.1 xs g a.2
    (rest.1, a.1 :: rest.2.1, rest.2.2)

/-- The multipath stage of the per-sample pipeline, as an independent stage
transform: push the sample into the filter and pop the output when enabled,
identity otherwise. -/
def multipath_stage (q : Channel) (x : ℂ) : Channel × ℂ :=
  if q.enabled_multipath then
    match q.channel_filter with
    | some f =>
      let f1 := Firfilt.push f x
      ({ q with channel_filter := some f1 }, Firfilt.output f1)
    | none => (q, x)
  else (q, x)

/-- The carrier stage of the per-sample pipeline: mix up by the oscillator
(advancing its phase) when enabled, identity otherwise. -/
noncomputable def carrier_stage (q : Channel) (y : ℂ) : Channel × ℂ :=
  if q.enabled_carrier then
    let r := Nco.mix_up q.nco y
    ({ q with nco := r.2 }, r.1)
  else (q, y)

/-- The noise stage of the per-sample pipeline: scale by `gamma` and add
`nstd * (g1 + i*g2) / sqrt 2` for two fresh draws when enabled, identity
(consuming no draws) otherwise. The channel state itself is not changed. -/
noncomputable def noise_stage (q : Channel) (y : ℂ) (g : ℕ → ℝ) (k : ℕ) :
    ℂ × ℕ :=
  if q.enabled_awgn then
    (y * q.gamma
      + q.nstd * ((g k : ℂ) + Complex.I * (g (k + 1) : ℂ))
        * (((Real.sqrt 2)⁻¹ : ℝ) : ℂ), k + 2)
  else (y, k)

/-- One full per-sample pipeline step: multipath, then carrier, then noise,
each stage acting as the identity when disabled. -/
noncomputable def channel_step (q : Channel) (x : ℂ) (g : ℕ → ℝ) (k : ℕ) :
    Channel × ℂ × ℕ :=
  let m := multipath_stage q x
  let c := carrier_stage m.1 m.2
  let a := noise_stage c.1 c.2 g k
  (c.1, a.1, a.2)

/-- The pipeline fold: apply `channel_step` to each sample in index order,
threading the channel state and the draw cursor, collecting the outputs. -/
noncomputable def run_pipeline (q : Channel) (x : List ℂ) (g : ℕ → ℝ) (k : ℕ) :
    Channel × List ℂ × ℕ :=
  match x with
  | [] => (q, [], k)
  | xi :: xs =>
    let s := channel_step q xi g k
    let r := run_pipeline s.1 xs g s.2.2
    (r.1, s.2.1 :: r.2.1, r.2.2)

end Channel

namespace Channel

/-- Helper: the multipath stage leaves every channel field except the owned
filter object unchanged, in every branch. -/
theorem multipath_stage_state_fields (q : Channel) (x : ℂ) :
    (multipath_stage q x).1.enabled_awgn = q.enabled_awgn ∧
    (multipath_stage q x).1.enabled_carrier = q.enabled_carrier ∧
    (multipath_stage q x).1.enabled_multipath = q.enabled_multipath ∧
    (multipath_stage q x).1.nco = q.nco := by
  by_cases hm : q.enabled_multipath
  · cases hf : q.channel_filter <;> simp [multipath_stage, hm, hf]
  · simp [multipath_stage, hm]

/-- Helper: the carrier stage leaves every channel field except the owned
oscillator unchanged, in every branch. -/
theorem carrier_stage_state_fields (q : Channel) (y : ℂ) :
    (carrier_stage q y).1.enabled_awgn = q.enabled_awgn ∧
    (carrier_stage q y).1.enabled_carrier = q.enabled_carrier ∧
    (carrier_stage q y).1.enabled_multipath = q.enabled_multipath ∧
    (carrier_stage q y).1.channel_filter = q.channel_filter := by
  by_cases hc : q.enabled_carrier <;> simp [carrier_stage, hc]

/-- Helper: one pipeline step never changes the three stage-enable flags. -/
theorem channel_step_flags (q : Channel) (x : ℂ) (g : ℕ → ℝ) (k : ℕ) :
    (channel_step q x g k).1.enabled_awgn = q.enabled_awgn ∧
    (channel_step q x g k).1.enabled_carrier = q.enabled_carrier ∧
    (channel_step q x g k).1.enabled_multipath = q.enabled_multipath := by
  have hm := multipath_stage_state_fields q x
  have hc := carrier_stage_state_fields (multipath_stage q x).1 (multipath_stage q x).2
  exact ⟨hc.1.trans hm.1, hc.2.1.trans hm.2.1, hc.2.2.1.trans hm.2.2.1⟩

/-- Helper: `execute` agrees with the stage-composed pipeline fold. -/
theorem execute_eq_run_pipeline (x : List ℂ) :
    ∀ (q : Channel) (g : ℕ → ℝ) (k : ℕ), execute q x g k = run_pipeline q x g k := by
  induction x with
  | nil => intro q g k; rfl
  | cons a xs ih =>
    intro q g k
    simp only [execute, run_pipeline, channel_step, multipath_stage, carrier_stage,
      noise_stage, ih]

/-- Helper: `execute` returns exactly one output sample per input sample. -/
theorem execute_output_length (x : List ℂ) :
    ∀ (q : Channel) (g : ℕ → ℝ) (k : ℕ),
      ((execute q x g k).2.1).length = x.length := by
  induction x with
  | nil => intro q g k; rfl
  | cons a xs ih =>
    intro q g k
    simp only [execute]
    simp [ih]

/-- Helper: unfolding one step of `execute` through the pipeline step. -/
theorem execute_cons (q : Channel) (a : ℂ) (xs : List ℂ) (g : ℕ → ℝ) (k : ℕ) :
    execute q (a :: xs) g k =
      ((execute (channel_step q a g k).1 xs g (channel_step q a g k).2.2).1,
        (channel_step q a g k).2.1 ::
          (execute (channel_step q a g k).1 xs g (channel_step q a g k).2.2).2.1,
        (execute (channel_step q a g k).1 xs g (channel_step q a g k).2.2).2.2) := rfl

/-- Helper: processing a concatenation in one `execute` call is the same as
two consecutive calls, threading the engine state and the draw cursor. -/
theorem execute_append (xs : List ℂ) :
    ∀ (ys : List ℂ) (q : Channel) (g : ℕ → ℝ) (k : ℕ),
      execute q (xs ++ ys) g k =
        ((execute (execute q xs g k).1 ys g (execute q xs g k).2.2).1,
          (execute q xs g k).2.1 ++ (execute (execute q xs g k).1 ys g (execute q xs g k).2.2).2.1,
          (execute (execute q xs g k).1 ys g (execute q xs g k).2.2).2.2) := by
  induction xs with
  | nil => intro ys q g k; rfl
  | cons a xs ih =>
    intro ys q g k
    simp [List.cons_append, execute_cons, ih]

end Channel

namespace Channel

/-- Helper: the three stage-enable flags of a freshly created engine. -/
theorem create_flags :
    create.enabled_awgn = false ∧ create.enabled_carrier = false ∧
      create.enabled_multipath = false :=
  ⟨rfl, rfl, rfl⟩

/-- Helper: the pipeline fold never changes the three stage-enable flags. -/
theorem run_pipeline_flags (x : List ℂ) :
    ∀ (q : Channel) (g : ℕ → ℝ) (k : ℕ),
      (run_pipeline q x g k).1.enabled_awgn = q.enabled_awgn ∧
      (run_pipeline q x g k).1.enabled_carrier = q.enabled_carrier ∧
      (run_pipeline q x g k).1.enabled_multipath = q.enabled_multipath := by
  induction x with
  | nil => intro q g k; exact ⟨rfl, rfl, rfl⟩
  | cons a xs ih =>
    intro q g k
    have hs := channel_step_flags q a g k
    have hr := ih (channel_step q a g k).1 g (channel_step q a g k).2.2
    simp only [run_pipeline]
    exact ⟨hr.1.trans hs.1, hr.2.1.trans hs.2.1, hr.2.2.trans hs.2.2⟩

/-- Helper: `execute` never changes the three stage-enable flags. -/
theorem execute_flags (x : List ℂ) (q : Channel) (g : ℕ → ℝ) (k : ℕ) :
    (execute q x g k).1.enabled_awgn = q.enabled_awgn ∧
    (execute q x g k).1.enabled_carrier = q.enabled_carrier ∧
    (execute q x g k).1.enabled_multipath = q.enabled_multipath := by
  rw [execute_eq_run_pipeline]
  exact run_pipeline_flags x q g k

/-- C1: for every engine state and input buffer, `execute` processes the
samples in strict index order, applying to each exactly the enabled stages
in the fixed order multipath (filter push then pop), then carrier
(oscillator mix-up), then noise (scale by `gamma`, then add
`nstd * (g1 + i*g2) * (1/sqrt 2)` for two fresh Gaussian draws), each
disabled stage acting as the identity, and returns exactly one output
sample per input sample. -/
theorem execute_is_staged_pipeline (q : Channel) (x : List ℂ) (g : ℕ → ℝ) (k : ℕ) :
    execute q x g k = run_pipeline q x g k ∧
      ((execute q x g k).2.1).length = x.length :=
  ⟨execute_eq_run_pipeline x q g k, execute_output_length x q g k⟩

/-- C2: `add_awgn` accepts arbitrary dB inputs (no bounds checking), enables
the noise stage, records the inputs, and derives
`nstd = 10^(noiseFloorDB/20)` and `gamma = 10^((SNRdB+noiseFloorDB)/20)`;
the derived values depend only on the two arguments (the same equations
hold for every prior state `q`), so re-invocation overwrites any previously
derived noise parameters. -/
theorem add_awgn_derivation (q : Channel) (noisefloor snr : ℝ) :
    (add_awgn q noisefloor snr).enabled_awgn = true ∧
    (add_awgn q noisefloor snr).noise_floor_dB = noisefloor ∧
    (add_awgn q noisefloor snr).SNRdB = snr ∧
    (add_awgn q noisefloor snr).nstd = (((10 : ℝ) ^ (noisefloor / 20) : ℝ) : ℂ) ∧
    (add_awgn q noisefloor snr).gamma =
      (((10 : ℝ) ^ ((snr + noisefloor) / 20) : ℝ) : ℂ) :=
  ⟨rfl, rfl, rfl, rfl, rfl⟩

/-- C3 (failing input): requesting synthesized coefficients of length 2 with
both Gaussian draws equal to 1 produces tap 1 equal to
`0.05 * (g1 * i * g2) = 0.05*i` — the C source multiplies the two draws
(`randnf() * _Complex_I*randnf()`) — which differs from the claimed
`0.05 * (g1 + i*g2) = 0.05*(1 + i)`: the synthesized tap is purely
imaginary, not a complex value with the two draws as real and imaginary
parts. -/
theorem add_multipath_random_tap_failing_input :
    (add_multipath create none 2 (fun _ => 1) 0).1.h =
        [1, (0.05 : ℂ) * Complex.I] ∧
      (0.05 : ℂ) * Complex.I ≠ (0.05 : ℂ) * (1 + Complex.I) := by
  constructor
  · norm_num [add_multipath, synth_taps]
  · intro hc
    have h5 : (0.05 : ℂ) ≠ 0 := by norm_num
    have h2 := congrArg Complex.re (mul_left_cancel₀ h5 hc)
    simp at h2

/-- C4: `add_multipath` with length above 1000 surfaces the fatal error
(`exit(1)` in the C source), rebuilds no filter, truncates nothing, and the
engine state at the point of the error is exactly the state before the
call. -/
theorem add_multipath_overlong_fatal (q : Channel) (hin : Option (List ℂ))
    (len : ℕ) (hlen : 1000 < len) (g : ℕ → ℝ) (k : ℕ) :
    add_multipath q hin len g k = (q, MpStatus.fatal, k) := by
  have h0 : ¬ len = 0 := by omega
  simp [add_multipath, h0, hlen]

/-- C4 witness: the fatal branch at the concrete length 1001. -/
theorem add_multipath_overlong_fatal_witness :
    1000 < 1001 ∧
      add_multipath create none 1001 (fun _ => 0) 0 =
        (create, MpStatus.fatal, 0) :=
  ⟨by norm_num,
    add_multipath_overlong_fatal create none 1001 (by norm_num) (fun _ => 0) 0⟩

/-- C5: `add_multipath` with length 0 is a complete no-op apart from the
warning: the returned state is exactly the state before the call (all
fields, in particular the enabled flag, the coefficients, their length and
the owned filter), no draws are consumed, and the call reports the ignored
status. -/
theorem add_multipath_zero_len_noop (q : Channel) (hin : Option (List ℂ))
    (g : ℕ → ℝ) (k : ℕ) :
    add_multipath q hin 0 g k = (q, MpStatus.ignored, k) := rfl

/-- C6: splitting one buffer at any point `n` into two consecutive `execute`
calls (the second starting from the first call's final state and draw
cursor) produces the same concatenated output, the same final state (in
particular the same continuous carrier phase trajectory) and the same final
draw cursor as one `execute` call over the whole buffer. -/
theorem execute_split (q : Channel) (x : List ℂ) (g : ℕ → ℝ) (k n : ℕ) :
    execute q x g k =
      ((execute (execute q (x.take n) g k).1 (x.drop n) g
          (execute q (x.take n) g k).2.2).1,
        (execute q (x.take n) g k).2.1 ++
          (execute (execute q (x.take n) g k).1 (x.drop n) g
            (execute q (x.take n) g k).2.2).2.1,
        (execute (execute q (x.take n) g k).1 (x.drop n) g
          (execute q (x.take n) g k).2.2).2.2) := by
  conv_lhs => rw [← List.take_append_drop n x]
  exact execute_append (x.take n) (x.drop n) q g k

/-- C7: a freshly created engine (all stages disabled) passes every input
buffer through unchanged: the output equals the input sample for sample
(hence has the input's length), the state is untouched and no random draws
are consumed. -/
theorem execute_fresh_passthrough (x : List ℂ) (g : ℕ → ℝ) (k : ℕ) :
    execute create x g k = (create, x, k) := by
  induction x generalizing k with
  | nil => rfl
  | cons a xs ih =>
    simp [execute_cons, channel_step, multipath_stage, carrier_stage,
      noise_stage, create_flags.1, create_flags.2.1, create_flags.2.2, ih]

/-- C8 (counterexample): `create` does not build the one-tap multipath
filter — the filter slot is `NULL` (`none`) until `add_multipath` first
runs, so it differs from a filter built from the coefficient sequence
`[1.0]`. -/
theorem create_filter_not_built :
    create.channel_filter ≠ some (Firfilt.create [1]) := by
  simp [create]

/-- C8 (amended): `create` returns an engine with all three stages disabled,
a fresh oscillator with frequency and phase both zero, the coefficient
sequence `[1.0]` of length 1, and no multipath filter object built
(`channel_filter = NULL`). -/
theorem create_default_state :
    create.enabled_awgn = false ∧ create.enabled_carrier = false ∧
      create.enabled_multipath = false ∧ create.nco = Nco.create ∧
      create.nco.freq = 0 ∧ create.nco.phase = 0 ∧
      create.h = [1] ∧ create.h_len = 1 ∧ create.channel_filter = none :=
  ⟨rfl, rfl, rfl, rfl, rfl, rfl, rfl, rfl, rfl⟩

/-- C9: no operation of the interface ever disables a stage: each of the
three enable flags is monotone (`false ≤ true` on `Bool`) across
`add_awgn`, `add_carrier_offset`, `add_multipath` (every outcome) and
`execute`. -/
theorem flags_never_disabled (q : Channel) (nf snr fr ph : ℝ)
    (hin : Option (List ℂ)) (len : ℕ) (x : List ℂ) (g : ℕ → ℝ) (k : ℕ) :
    (q.enabled_awgn ≤ (add_awgn q nf snr).enabled_awgn ∧
      q.enabled_carrier ≤ (add_awgn q nf snr).enabled_carrier ∧
      q.enabled_multipath ≤ (add_awgn q nf snr).enabled_multipath) ∧
    (q.enabled_awgn ≤ (add_carrier_offset q fr ph).enabled_awgn ∧
      q.enabled_carrier ≤ (add_carrier_offset q fr ph).enabled_carrier ∧
      q.enabled_multipath ≤ (add_carrier_offset q fr ph).enabled_multipath) ∧
    (q.enabled_awgn ≤ (add_multipath q hin len g k).1.enabled_awgn ∧
      q.enabled_carrier ≤ (add_multipath q hin len g k).1.enabled_carrier ∧
      q.enabled_multipath ≤ (add_multipath q hin len g k).1.enabled_multipath) ∧
    (q.enabled_awgn ≤ (execute q x g k).1.enabled_awgn ∧
      q.enabled_carrier ≤ (execute q x g k).1.enabled_carrier ∧
      q.enabled_multipath ≤ (execute q x g k).1.enabled_multipath) := by
  have hx := execute_flags x q g k
  refine ⟨⟨Bool.le_true _, le_refl _, le_refl _⟩,
    ⟨le_refl _, Bool.le_true _, le_refl _⟩, ?_,
    ⟨hx.1 ▸ le_refl _, hx.2.1 ▸ le_refl _, hx.2.2 ▸ le_refl _⟩⟩
  by_cases h0 : len = 0
  · subst h0
    exact ⟨le_refl _, le_refl _, le_refl _⟩
  · by_cases h1 : 1000 < len
    · simp [add_multipath, h0, h1]
    · cases hin <;> simp [add_multipath, h0, h1, Bool.le_true]

end Channel

namespace Channel

/-- C10: each configurator only touches its own stage's fields: `add_awgn`
leaves the carrier fields (flag, offsets, oscillator) and the multipath
fields (flag, coefficients, length, filter) unchanged; `add_carrier_offset`
leaves the noise and multipath fields unchanged; a successful
`add_multipath` (length between 1 and 1000) leaves the noise and carrier
fields unchanged. -/
theorem configurators_frame (q : Channel) (nf snr fr ph : ℝ)
    (hin : Option (List ℂ)) (len : ℕ) (g : ℕ → ℝ) (k : ℕ)
    (hpos : 0 < len) (hmax : len ≤ 1000) :
    ((add_awgn q nf snr).enabled_carrier = q.enabled_carrier ∧
      (add_awgn q nf snr).dphi = q.dphi ∧
      (add_awgn q nf snr).phi = q.phi ∧
      (add_awgn q nf snr).nco = q.nco ∧
      (add_awgn q nf snr).enabled_multipath = q.enabled_multipath ∧
      (add_awgn q nf snr).channel_filter = q.channel_filter ∧
      (add_awgn q nf snr).h = q.h ∧
      (add_awgn q nf snr).h_len = q.h_len) ∧
    ((add_carrier_offset q fr ph).enabled_awgn = q.enabled_awgn ∧
      (add_carrier_offset q fr ph).gamma = q.gamma ∧
      (add_carrier_offset q fr ph).nstd = q.nstd ∧
      (add_carrier_offset q fr ph).noise_floor_dB = q.noise_floor_dB ∧
      (add_carrier_offset q fr ph).SNRdB = q.SNRdB ∧
      (add_carrier_offset q fr ph).enabled_multipath = q.enabled_multipath ∧
      (add_carrier_offset q fr ph).channel_filter = q.channel_filter ∧
      (add_carrier_offset q fr ph).h = q.h ∧
      (add_carrier_offset q fr ph).h_len = q.h_len) ∧
    ((add_multipath q hin len g k).1.enabled_awgn = q.enabled_awgn ∧
      (add_multipath q hin len g k).1.gamma = q.gamma ∧
      (add_multipath q hin len g k).1.nstd = q.nstd ∧
      (add_multipath q hin len g k).1.noise_floor_dB = q.noise_floor_dB ∧
      (add_multipath q hin len g k).1.SNRdB = q.SNRdB ∧
      (add_multipath q hin len g k).1.enabled_carrier = q.enabled_carrier ∧
      (add_multipath q hin len g k).1.dphi = q.dphi ∧
      (add_multipath q hin len g k).1.phi = q.phi ∧
      (add_multipath q hin len g k).1.nco = q.nco) := by
  have h0 : ¬ len = 0 := by omega
  have h1 : ¬ 1000 < len := by omega
  refine ⟨⟨rfl, rfl, rfl, rfl, rfl, rfl, rfl, rfl⟩,
    ⟨rfl, rfl, rfl, rfl, rfl, rfl, rfl, rfl, rfl⟩, ?_⟩
  cases hin <;> simp [add_multipath, h0, h1]

/-- C10 witness: the frame property at a concrete state (the fresh engine),
concrete configurator arguments, and the concrete valid multipath length 2. -/
theorem configurators_frame_witness :
    0 < 2 ∧ 2 ≤ 1000 ∧
      (((add_awgn create 1 2).enabled_carrier = create.enabled_carrier ∧
        (add_awgn create 1 2).dphi = create.dphi ∧
        (add_awgn create 1 2).phi = create.phi ∧
        (add_awgn create 1 2).nco = create.nco ∧
        (add_awgn create 1 2).enabled_multipath = create.enabled_multipath ∧
        (add_awgn create 1 2).channel_filter = create.channel_filter ∧
        (add_awgn create 1 2).h = create.h ∧
        (add_awgn create 1 2).h_len = create.h_len) ∧
      ((add_carrier_offset create 3 4).enabled_awgn = create.enabled_awgn ∧
        (add_carrier_offset create 3 4).gamma = create.gamma ∧
        (add_carrier_offset create 3 4).nstd = create.nstd ∧
        (add_carrier_offset create 3 4).noise_floor_dB = create.noise_floor_dB ∧
        (add_carrier_offset create 3 4).SNRdB = create.SNRdB ∧
        (add_carrier_offset create 3 4).enabled_multipath = create.enabled_multipath ∧
        (add_carrier_offset create 3 4).channel_filter = create.channel_filter ∧
        (add_carrier_offset create 3 4).h = create.h ∧
        (add_carrier_offset create 3 4).h_len = create.h_len) ∧
      ((add_multipath create none 2 (fun _ => 0) 0).1.enabled_awgn = create.enabled_awgn ∧
        (add_multipath create none 2 (fun _ => 0) 0).1.gamma = create.gamma ∧
        (add_multipath create none 2 (fun _ => 0) 0).1.nstd = create.nstd ∧
        (add_multipath create none 2 (fun _ => 0) 0).1.noise_floor_dB = create.noise_floor_dB ∧
        (add_multipath create none 2 (fun _ => 0) 0).1.SNRdB = create.SNRdB ∧
        (add_multipath create none 2 (fun _ => 0) 0).1.enabled_carrier = create.enabled_carrier ∧
        (add_multipath create none 2 (fun _ => 0) 0).1.dphi = create.dphi ∧
        (add_multipath create none 2 (fun _ => 0) 0).1.phi = create.phi ∧
        (add_multipath create none 2 (fun _ => 0) 0).1.nco = create.nco)) :=
  ⟨by norm_num, by norm_num,
    configurators_frame create 1 2 3 4 none 2 (fun _ => 0) 0
      (by norm_num) (by norm_num)⟩

end Channel
